import Mathlib

/-!
Verification of the audio_files_manager repository's Recording Session &
Metadata Store against its natural-language specification.

The Python sources in `src/audio_file_manager/` are shallowly embedded:

* `Record` mirrors the RecordingRecord dictionaries the manager writes
  (`sample_rate`/`channels` are `Option` because `assign_default` and
  `restore_default` omit those keys; `duration` is carried as an opaque
  `Option Int` token since no verified claim computes with it).
* Python `dict[str, ...]` becomes an association list with first-match
  lookup and replace-in-place update (`Dict.get` / `Dict.insert`).
* Python `set[str]` becomes `List String` viewed up to membership; the
  set operations used by the code (difference, `add`, emptiness,
  `min(...)`) are `sdiffS`, `insertS`, `List.isEmpty` and `strMin?`.
  Python's `min` on a set of strings compares them lexicographically by
  code point, which `charListLt` reproduces exactly; since a set never
  holds two equal strings the fold is independent of element order.
* The backing JSON file is modelled at the parsed-value level
  (`MetaFile`): Python's `json.dump`/`json.load` pair is external
  standard-library code, and dumping a string-keyed dictionary of
  JSON-representable records and loading it back is the identity, so the
  file state is `absent`, `invalid` (present but not valid JSON, where
  `json.load` raises `json.JSONDecodeError`), or `valid store`.
* The filesystem visible to the manager is a map from path strings to
  abstract file contents (`FS`); `shutil.move`, `shutil.copy` and the
  ffmpeg subprocess act on it.  The outcome of the ffmpeg subprocess is a
  parameter (`ConvOutcome`), since the transcoder is an external
  collaborator.
* `datetime` values are embedded as a plain record of calendar fields and
  the two formatting functions the code uses (`isoformat`,
  `strftime "%Y-%m-%d %H:%M:%S"`) are implemented over it.
-/

set_option autoImplicit false

namespace AudioFiles

/-- Python `dict[str, α]` as an association list (first match wins). -/
abbrev Dict (α : Type) : Type := List (String × α)

/-- `d.get k` / `d[k]` lookup: first entry whose key equals `k`. -/
def Dict.get {α : Type} : Dict α → String → Option α
  | [], _ => none
  | (k', v) :: rest, k => if k' = k then some v else Dict.get rest k

/-- `d[k] = v`: replace the first entry with key `k`, else append. -/
def Dict.insert {α : Type} : Dict α → String → α → Dict α
  | [], k, v => [(k, v)]
  | (k', v') :: rest, k, v =>
    if k' = k then (k, v) :: rest else (k', v') :: Dict.insert rest k v

/-- `d.keys()`. -/
def Dict.keys {α : Type} (d : Dict α) : List String :=
  d.map Prod.fst

/-- Lexicographic strict comparison of char lists by code point — the
order Python uses on `str`. -/
def charListLt : List Char → List Char → Bool
  | [], [] => false
  | [], _ :: _ => true
  | _ :: _, [] => false
  | x :: xs, y :: ys =>
    if x < y then true else if y < x then false else charListLt xs ys

/-- Python `a < b` on strings. -/
def strLtB (a b : String) : Bool :=
  charListLt a.toList b.toList

/-- Left fold of Python's `min` over the remaining elements. -/
def minFold : List String → String → String
  | [], x => x
  | z :: zs, x => minFold zs (if strLtB z x then z else x)

/-- Python `min(s)` over a collection of strings (`none` when empty;
`min` raises `ValueError` there, a case the embedded code never hits). -/
def strMin? : List String → Option String
  | [] => none
  | x :: xs => some (minFold xs x)

/-- Python set difference `a - b`, on lists viewed as sets. -/
def sdiffS (a b : List String) : List String :=
  a.filter (fun x => !(b.contains x))

/-- Python `s.add(x)`, on lists viewed as sets. -/
def insertS (x : String) (s : List String) : List String :=
  if s.contains x then s else x :: s

/-- One RecordingRecord, as written into the metadata dictionary. -/
structure Record where
  name : String
  duration : Option Int
  path : String
  timestamp : String
  message_type : String
  audio_format : String
  sample_rate : Option Nat
  channels : Option Nat
  read_only : Bool
  is_default : Bool
  deriving DecidableEq, Repr

/-- The in-memory metadata mapping (`self.metadata`). -/
abbrev Store : Type := Dict Record

/-- The backing JSON file, at the parsed-value level (see module header). -/
inductive MetaFile : Type where
  /-- `metadata_file.exists()` is false. -/
  | absent : MetaFile
  /-- The file exists but `json.load` raises `json.JSONDecodeError`. -/
  | invalid : MetaFile
  /-- The file exists and parses to this store. -/
  | valid : Store → MetaFile
  deriving DecidableEq, Repr

/-- Python exceptions that the embedded operations can raise. -/
inductive PyError : Type where
  | jsonDecodeError : PyError
  | fileNotFound : PyError
  deriving DecidableEq, Repr

namespace MetadataManager

/-- `MetadataManager._load`: absent file or a `json.JSONDecodeError` both
degrade to `{}`; a parsable file yields its content. -/
def load : MetaFile → Store
  | .absent => []
  | .invalid => []
  | .valid s => s

end MetadataManager

/-- `MetadataManager` state: in-memory mapping plus the backing file. -/
structure MetadataManager where
  metadata : Store
  file : MetaFile
  deriving DecidableEq, Repr

namespace MetadataManager

/-- `MetadataManager.__init__`: read the store from the backing file. -/
def ofFile (f : MetaFile) : MetadataManager :=
  { metadata := load f, file := f }

/-- `MetadataManager.save`: `json.dump(self.metadata, f)` writes the whole
store to the backing file. -/
def save (m : MetadataManager) : MetadataManager :=
  { m with file := .valid m.metadata }

/-- `MetadataManager.get`. -/
def get (m : MetadataManager) (button_id : String) : Option Record :=
  m.metadata.get button_id

/-- `MetadataManager.update_recording`: `self.metadata[button_id] = data`
followed by `self.save()`. -/
def update_recording (m : MetadataManager) (button_id : String)
    (data : Record) : MetadataManager :=
  save { m with metadata := m.metadata.insert button_id data }

end MetadataManager

namespace AudioFileManager

/-- `AudioFileManager._load_metadata`: `json.load` is called with no
exception handler, so an unparsable file raises `json.JSONDecodeError`
out of the constructor. -/
def load_metadata : MetaFile → Except PyError Store
  | .absent => .ok []
  | .invalid => .error .jsonDecodeError
  | .valid s => .ok s

end AudioFileManager

/-- Abstract contents of a file on disk.  A `wav d` is a linear-PCM
container whose payload is the token `d`; `companded fmt d` is the result
of transcoding payload `d` to the companded format `fmt`. -/
inductive Content : Type where
  | wav : Nat → Content
  | companded : String → Nat → Content
  deriving DecidableEq, Repr

/-- The filesystem the manager touches: path → file contents. -/
abbrev FS : Type := Dict Content

/-- `shutil.move(src, dst)`: raises `FileNotFoundError` when `src` is
absent, else removes `src` and (over)writes `dst` with its contents. -/
def FS.move (fs : FS) (src dst : String) : Except PyError FS :=
  match fs.get src with
  | none => .error .fileNotFound
  | some c => .ok (Dict.insert (fs.filter (fun p => p.1 != src)) dst c)

/-- A `datetime.datetime` value, calendar fields only. -/
structure DateTime where
  year : Nat
  month : Nat
  day : Nat
  hour : Nat
  minute : Nat
  second : Nat
  microsecond : Nat
  deriving DecidableEq, Repr

/-- Zero-pad to two digits, as `strftime`/`isoformat` do. -/
def pad2 (n : Nat) : String :=
  if n < 10 then "0" ++ toString n else toString n

/-- Zero-pad to four digits (year field). -/
def pad4 (n : Nat) : String :=
  if n < 10 then "000" ++ toString n
  else if n < 100 then "00" ++ toString n
  else if n < 1000 then "0" ++ toString n
  else toString n

/-- Zero-pad to six digits (microsecond field). -/
def pad6 (n : Nat) : String :=
  if n < 10 then "00000" ++ toString n
  else if n < 100 then "0000" ++ toString n
  else if n < 1000 then "000" ++ toString n
  else if n < 10000 then "00" ++ toString n
  else if n < 100000 then "0" ++ toString n
  else toString n

/-- `datetime.isoformat()`: `YYYY-MM-DDTHH:MM:SS[.ffffff]`, the
fractional part omitted when `microsecond == 0`. -/
def DateTime.isoformat (d : DateTime) : String :=
  pad4 d.year ++ "-" ++ pad2 d.month ++ "-" ++ pad2 d.day ++ "T" ++
    pad2 d.hour ++ ":" ++ pad2 d.minute ++ ":" ++ pad2 d.second ++
    (if d.microsecond = 0 then "" else "." ++ pad6 d.microsecond)

/-- `AudioFileManager.create_timestamp`:
`datetime.now().strftime("%Y-%m-%d %H:%M:%S")`. -/
def create_timestamp (d : DateTime) : String :=
  pad4 d.year ++ "-" ++ pad2 d.month ++ "-" ++ pad2 d.day ++ " " ++
    pad2 d.hour ++ ":" ++ pad2 d.minute ++ ":" ++ pad2 d.second

/-- The spec's fixed textual timestamp format `YYYY-MM-DD HH:MM:SS`
(second precision, no timezone), as a check on a string: 19 characters,
digits in the date/time positions, `-` `-` separators, one space, `:` `:`
separators.  Written from the spec's words, for comparison with what the
code stores. -/
def specTimestampFormat (s : String) : Bool :=
  let cs := s.toList
  cs.length == 19 &&
    (List.range 19).all (fun i =>
      let c := cs.getD i ' '
      match i with
      | 4 | 7 => c == '-'
      | 10 => c == ' '
      | 13 | 16 => c == ':'
      | _ => c.isDigit)

/-- `PurePath.name`: the path component after the final `/`. -/
def pathName (p : String) : String :=
  (p.splitOn "/").getLastD p

/-- `PurePath.stem`: the final component without its last suffix. -/
def pathStem (p : String) : String :=
  let n := pathName p
  let parts := n.splitOn "."
  if parts.length ≤ 1 then n else String.intercalate "." parts.dropLast

/-- The PendingTempRecording dictionary returned by
`record_audio_to_temp` and consumed by `finalize_recording`. -/
structure TempInfo where
  button_id : String
  message_type : String
  duration : Int
  temp_path : String
  timestamp : String
  channels : Nat
  sample_rate : Nat
  audio_format : String
  deriving DecidableEq, Repr

/-- Outcome of the ffmpeg subprocess run inside
`_convert_audio_format` (external collaborator). -/
inductive ConvOutcome : Type where
  /-- `process.returncode == 0`. -/
  | success : ConvOutcome
  /-- `process.returncode != 0`. -/
  | failed : ConvOutcome
  /-- `subprocess.TimeoutExpired`. -/
  | timeout : ConvOutcome
  /-- `FileNotFoundError` (ffmpeg not installed). -/
  | notFound : ConvOutcome
  deriving DecidableEq, Repr

/-- `AudioFileManager` state: the fields that the verified operations
read or write. -/
structure Manager where
  metadata : Store
  occupied_away : List String
  occupied_custom : List String
  num_buttons : Nat
  audio_format : String
  sample_rate : Nat
  channels : Nat
  storage_dir : String
  temp_dir : String
  metadata_file : MetaFile
  fs : FS
  deriving DecidableEq, Repr

namespace Manager

/-- `AudioFileManager.MAX_FILES_PER_TYPE = set([str(i) for i in range(1, 5)])`. -/
def MAX_FILES_PER_TYPE : List String := ["1", "2", "3", "4"]

/-- `set(str(i) for i in range(1, num_buttons + 1))`. -/
def buttonUniverse (num_buttons : Nat) : List String :=
  (List.range num_buttons).map (fun i => toString (i + 1))

/-- The `available_ids` set computed at the top of `get_new_file_id`. -/
def availableIds (m : Manager) (message_type : String) : List String :=
  if message_type == "away_message" then
    sdiffS MAX_FILES_PER_TYPE m.occupied_away
  else if message_type == "custom_message" then
    sdiffS MAX_FILES_PER_TYPE m.occupied_custom
  else
    sdiffS (buttonUniverse m.num_buttons) m.metadata.keys

/-- `AudioFileManager.get_new_file_id`.  Returns the id (`None` when the
free-form branch is saturated) together with the updated manager state
(the saturated legacy branches clear their cached occupied set). -/
def get_new_file_id (m : Manager) (message_type : String) :
    Option String × Manager :=
  let avail := m.availableIds message_type
  if avail.isEmpty then
    if message_type == "away_message" then
      (strMin? MAX_FILES_PER_TYPE, { m with occupied_away := [] })
    else if message_type == "custom_message" then
      (strMin? MAX_FILES_PER_TYPE, { m with occupied_custom := [] })
    else
      (none, m)
  else
    (strMin? avail, m)

/-- `self.metadata.get(button_id, {}).get('read_only')`, as the truthiness
test at the top of `finalize_recording`. -/
def slotReadOnly (m : Manager) (button_id : String) : Bool :=
  match m.metadata.get button_id with
  | some r => r.read_only
  | none => false

/-- `AudioFileManager._convert_audio_format`: `False` for any target other
than `alaw`/`ulaw`; otherwise `True` exactly when the subprocess exits 0
(failure, timeout and missing ffmpeg all return `False`). -/
def convert_audio_format (target : String) (outcome : ConvOutcome) : Bool :=
  if target == "alaw" || target == "ulaw" then
    match outcome with
    | .success => true
    | _ => false
  else false

/-- What ffmpeg writes at the output path on success. -/
def convertContent (fmt : String) : Content → Content
  | .wav d => .companded fmt d
  | .companded _ d => .companded fmt d

/-- `AudioFileManager._save_metadata`. -/
def save_metadata (m : Manager) : Manager :=
  { m with metadata_file := .valid m.metadata }

/-- The `final_name` computed by `finalize_recording`: the stem plus a
format marker when transcoding to a companded format, else the temp
file's own name. -/
def finalName (m : Manager) (info : TempInfo) : String :=
  if m.audio_format == "alaw" || m.audio_format == "ulaw" then
    pathStem info.temp_path ++ "_" ++ m.audio_format ++ ".wav"
  else pathName info.temp_path

/-- The `final_path` computed by `finalize_recording`. -/
def finalPath (m : Manager) (info : TempInfo) : String :=
  m.storage_dir ++ "/" ++ finalName m info

/-- The metadata entry `finalize_recording` writes at `button_id`. -/
def finalRecord (m : Manager) (info : TempInfo) : Record :=
  { name := pathName (finalPath m info)
    duration := some info.duration
    path := finalPath m info
    timestamp := info.timestamp
    message_type := info.message_type
    audio_format := m.audio_format
    sample_rate := some info.sample_rate
    channels := some info.channels
    read_only := false
    is_default := false }

/-- The filesystem effect of `finalize_recording`'s move/convert block:
for companded output formats a successful ffmpeg run writes the converted
file (the temp file stays behind in the staging directory), a failed one
falls back to `shutil.move` of the original; for anything else the
original is moved. -/
def finalizeFS (m : Manager) (info : TempInfo) (conv : ConvOutcome) :
    Except PyError FS :=
  if m.audio_format == "alaw" || m.audio_format == "ulaw" then
    if convert_audio_format m.audio_format conv then
      .ok (match m.fs.get info.temp_path with
        | some c =>
          m.fs.insert (finalPath m info) (convertContent m.audio_format c)
        | none => m.fs)
    else m.fs.move info.temp_path (finalPath m info)
  else m.fs.move info.temp_path (finalPath m info)

/-- `AudioFileManager.finalize_recording`.  `conv` is the outcome of the
ffmpeg subprocess when one is run. -/
def finalize_recording (m : Manager) (info : TempInfo) (conv : ConvOutcome) :
    Except PyError Manager :=
  if m.slotReadOnly info.button_id then .ok m
  else
    match finalizeFS m info conv with
    | .error e => .error e
    | .ok fs' =>
      .ok { m with
        fs := fs'
        occupied_away :=
          if info.message_type == "away_message" then
            insertS info.button_id m.occupied_away
          else m.occupied_away
        occupied_custom :=
          if info.message_type == "custom_message" then
            insertS info.button_id m.occupied_custom
          else m.occupied_custom
        metadata := m.metadata.insert info.button_id (finalRecord m info)
        metadata_file :=
          .valid (m.metadata.insert info.button_id (finalRecord m info)) }

/-- `AudioFileManager.set_read_only`. -/
def set_read_only (m : Manager) (button_id : String) (read_only : Bool) :
    Manager :=
  match m.metadata.get button_id with
  | none => m
  | some r =>
    let md := m.metadata.insert button_id { r with read_only := read_only }
    { m with metadata := md, metadata_file := .valid md }

/-- `AudioFileManager.discard_recording`: unlink every file matching the
glob `temp_dir/{button_id}_*.wav`. -/
def discard_recording (m : Manager) (button_id : String) : Manager :=
  { m with fs := m.fs.filter (fun p =>
      !(p.1.startsWith (m.temp_dir ++ "/" ++ button_id ++ "_") &&
        p.1.endsWith ".wav")) }

/-- `AudioFileManager.assign_default`.  `now` is `datetime.utcnow()` at
the call; `durRead` is the duration computed by `wave.open` on the copied
file (`none` when `wave.Error` is raised). -/
def assign_default (m : Manager) (button_id fp : String) (now : DateTime)
    (durRead : Option Int) : Manager :=
  match m.fs.get fp with
  | none => m
  | some c =>
    let default_name := "default_" ++ button_id ++ ".wav"
    let default_path := m.storage_dir ++ "/" ++ default_name
    let fs' := m.fs.insert default_path c
    let md := m.metadata.insert button_id
      { name := default_name
        duration := durRead
        path := default_path
        timestamp := now.isoformat
        message_type := "default"
        audio_format := "wav"
        sample_rate := none
        channels := none
        read_only := true
        is_default := true }
    { m with fs := fs', metadata := md, metadata_file := .valid md }

/-- `AudioFileManager.restore_default`.  `epoch` is `int(time.time())`;
`now` and `durRead` as in `assign_default`. -/
def restore_default (m : Manager) (button_id : String) (now : DateTime)
    (epoch : Nat) (durRead : Option Int) : Manager :=
  let default_path := m.storage_dir ++ "/default_" ++ button_id ++ ".wav"
  match m.fs.get default_path with
  | none => m
  | some c =>
    let restored_name := button_id ++ "_restored_" ++ toString epoch ++ ".wav"
    let restored_path := m.storage_dir ++ "/" ++ restored_name
    let fs' := m.fs.insert restored_path c
    let md := m.metadata.insert button_id
      { name := restored_name
        duration := durRead
        path := restored_path
        timestamp := now.isoformat
        message_type := "restored_default"
        audio_format := "wav"
        sample_rate := none
        channels := none
        read_only := false
        is_default := false }
    { m with fs := fs', metadata := md, metadata_file := .valid md }

/-- `message_type.lower().replace(" ", "_")`, computed characterwise:
for the single-character pattern `" "` Python's `str.replace` is a
per-character substitution, and `str.lower()` lowercases each char. -/
def keywordOf (message_type : String) : String :=
  String.mk ((message_type.toList.map Char.toLower).map
    (fun ch => if ch = ' ' then '_' else ch))

/-- `AudioFileManager.record_audio_to_temp`.  `now` is
`datetime.utcnow()`, `epoch` is `int(time.time())`, `pcm` the bytes the
backend captured, `duration` the float duration computed from them
(carried as an opaque token). -/
def record_audio_to_temp (m : Manager) (button_id message_type : String)
    (now : DateTime) (epoch : Nat) (pcm : Nat) (duration : Int) :
    TempInfo × Manager :=
  let keyword := keywordOf message_type
  let filename := button_id ++ "_" ++ keyword ++ "_" ++ toString epoch ++ ".wav"
  let temp_path := m.temp_dir ++ "/" ++ filename
  let info : TempInfo :=
    { button_id := button_id
      message_type := message_type
      duration := duration
      temp_path := temp_path
      timestamp := now.isoformat
      channels := m.channels
      sample_rate := m.sample_rate
      audio_format := "wav" }
  (info, { m with fs := m.fs.insert temp_path (.wav pcm) })

end Manager

/-- The invariant of claim C7—every default record is read-only—as a
decidable check over a store. -/
def defaultsReadOnly (s : Store) : Bool :=
  s.all (fun p => !p.2.is_default || p.2.read_only)

/-- Timestamp of the record stored at a key, if any. -/
def tsAt (s : Store) (k : String) : Option String :=
  (s.get k).map Record.timestamp

/-- The claim's category universe: the fixed legacy pool for the two
hard-wired categories, the numbered button range otherwise (spec §4.2
step 2). -/
def specCategoryUniverse (m : Manager) (t : String) : List String :=
  if t == "away_message" || t == "custom_message" then
    Manager.MAX_FILES_PER_TYPE
  else Manager.buttonUniverse m.num_buttons

/-- The claim's occupants of a category: ids whose stored record has this
`message_type` (spec §4.2 step 1). -/
def specCategoryOccupants (m : Manager) (t : String) : List String :=
  (m.metadata.filter (fun p => p.2.message_type == t)).map Prod.fst

/-- The claim's saturation condition: every id of the category's universe
is occupied by a record of that category. -/
def specSaturated (m : Manager) (t : String) : Bool :=
  (specCategoryUniverse m t).all
    (fun x => (specCategoryOccupants m t).contains x)

/-- The ids among a category's occupants whose record carries the minimum
`timestamp` (spec §4.2 step 4's eviction target). -/
def specMinTimestampIds (m : Manager) (t : String) : List String :=
  let occ := m.metadata.filter (fun p => p.2.message_type == t)
  match strMin? (occ.map (fun p => p.2.timestamp)) with
  | none => []
  | some ts => (occ.filter (fun p => p.2.timestamp == ts)).map Prod.fst

/-- Did a fallible manager operation return normally? -/
def runOk (e : Except PyError Manager) : Bool :=
  match e with
  | .ok _ => true
  | .error _ => false

/-- Filesystem after a fallible manager operation (empty on error). -/
def runFS (e : Except PyError Manager) : FS :=
  match e with
  | .ok m => m.fs
  | .error _ => []

/-- Metadata store after a fallible manager operation (empty on error). -/
def runStore (e : Except PyError Manager) : Store :=
  match e with
  | .ok m => m.metadata
  | .error _ => []

/-! ### Concrete states used to instantiate the theorems -/

/-- A plain finalized record, the template for the concrete states. -/
def baseRec : Record :=
  { name := "x.wav"
    duration := some 1
    path := "/s/x.wav"
    timestamp := "2024-01-01 00:00:00"
    message_type := "away_message"
    audio_format := "pcm"
    sample_rate := some 44100
    channels := some 1
    read_only := false
    is_default := false }

/-- `baseRec` with a given category and timestamp. -/
def typedRec (t ts : String) : Record :=
  { baseRec with message_type := t, timestamp := ts }

/-- A freshly constructed manager over an empty store. -/
def baseMgr : Manager :=
  { metadata := []
    occupied_away := []
    occupied_custom := []
    num_buttons := 16
    audio_format := "pcm"
    sample_rate := 44100
    channels := 1
    storage_dir := "/s"
    temp_dir := "/t"
    metadata_file := .valid []
    fs := [] }

/-- A manager whose away_message category is saturated, with the oldest
record at id "3". -/
def exC1saturated : Manager :=
  { baseMgr with
    metadata := [("1", typedRec "away_message" "2024-01-01 00:00:00"),
                 ("2", typedRec "away_message" "2023-01-01 00:00:00"),
                 ("3", typedRec "away_message" "2020-01-01 00:00:00"),
                 ("4", typedRec "away_message" "2022-01-01 00:00:00")],
    occupied_away := ["1", "2", "3", "4"] }

/-- A two-button manager whose free-form category "greeting" is
saturated. -/
def exC1freeform : Manager :=
  { baseMgr with
    metadata := [("1", typedRec "greeting" "2020-01-01 00:00:00"),
                 ("2", typedRec "greeting" "2021-01-01 00:00:00")],
    num_buttons := 2 }

/-- A manager holding a read-only record at id "3", with the matching
pending temp file on disk. -/
def exRO : Manager :=
  { baseMgr with
    metadata := [("3", { baseRec with read_only := true })],
    fs := [("/t/3_note_100.wav", Content.wav 7)] }

/-- A pending-recording descriptor targeting the read-only slot "3". -/
def exROinfo : TempInfo :=
  { button_id := "3"
    message_type := "note"
    duration := 3
    temp_path := "/t/3_note_100.wav"
    timestamp := "2024-05-06T07:08:09.123456"
    channels := 1
    sample_rate := 44100
    audio_format := "wav" }

/-- Two managers with identical metadata but different cached occupied
sets: the empty-store manager… -/
def exC4a : Manager := baseMgr

/-- …and the same store with "1" already marked occupied in the cache. -/
def exC4b : Manager := { baseMgr with occupied_away := ["1"] }

/-- Metadata equal to `exC4a`'s plus one "greeting" record, three
buttons. -/
def exC4w1 : Manager :=
  { baseMgr with
    metadata := [("1", typedRec "greeting" "2022-01-01 00:00:00")],
    num_buttons := 3 }

/-- Same metadata and button count as `exC4w1`, different cached sets. -/
def exC4w2 : Manager := { exC4w1 with occupied_away := ["9"] }

/-- Ten buttons, id "1" occupied, "2" and "10" both free. -/
def exC5mgr : Manager :=
  { baseMgr with
    metadata := [("1", typedRec "greeting" "2020-01-01 00:00:00")],
    num_buttons := 10 }

/-- A concrete `datetime.utcnow()` value with nonzero microseconds. -/
def dtC6 : DateTime :=
  { year := 2024, month := 5, day := 6, hour := 7, minute := 8,
    second := 9, microsecond := 123456 }

/-- A manager with a source file and a stored default file for id "2". -/
def exC6 : Manager :=
  { baseMgr with
    fs := [("/src.wav", Content.wav 5), ("/s/default_2.wav", Content.wav 6)] }

/-- The pending descriptor produced by recording slot "5" on `baseMgr`. -/
def exC6pend : TempInfo × Manager :=
  baseMgr.record_audio_to_temp "5" "note" dtC6 100 7 3

/-- A factory-default record: `is_default = read_only = true`. -/
def defaultRec : Record :=
  { baseRec with message_type := "default", read_only := true, is_default := true }

/-- A store satisfying the default⇒read-only invariant: one factory
default record at id "1". -/
def exC7 : Manager :=
  { baseMgr with metadata := [("1", defaultRec)] }

/-- An alaw-configured manager with a pending temp file for slot "5". -/
def exC8 : Manager :=
  { baseMgr with
    audio_format := "alaw",
    fs := [("/t/5_note_100.wav", Content.wav 7)] }

/-- The pending descriptor for `exC8`'s temp file. -/
def exC8info : TempInfo :=
  { button_id := "5"
    message_type := "note"
    duration := 3
    temp_path := "/t/5_note_100.wav"
    timestamp := "2024-05-06T07:08:09.123456"
    channels := 1
    sample_rate := 44100
    audio_format := "wav" }

/-! ### Helper lemmas -/

theorem Dict.get_insert_self {α : Type} (d : Dict α) (k : String) (v : α) :
    (d.insert k v).get k = some v := by
  induction d with
  | nil => simp [Dict.insert, Dict.get]
  | cons hd tl ih =>
    obtain ⟨k', v'⟩ := hd
    by_cases h : k' = k
    · simp [Dict.insert, h, Dict.get]
    · simp [Dict.insert, h, Dict.get, ih]

theorem Dict.get_insert_ne {α : Type} (d : Dict α) (k k' : String) (v : α)
    (h : k ≠ k') : (d.insert k v).get k' = d.get k' := by
  induction d with
  | nil => simp [Dict.insert, Dict.get, h]
  | cons hd tl ih =>
    obtain ⟨k₀, v₀⟩ := hd
    by_cases h₀ : k₀ = k
    · subst h₀
      simp [Dict.insert, Dict.get, h]
    · simp [Dict.insert, h₀, Dict.get, ih]

theorem Dict.all_insert {α : Type} (d : Dict α) (k : String) (v : α)
    (p : String × α → Bool) (hall : d.all p = true) (hv : p (k, v) = true) :
    (d.insert k v).all p = true := by
  induction d with
  | nil => simpa [Dict.insert]
  | cons hd tl ih =>
    obtain ⟨k', v'⟩ := hd
    simp only [List.all_cons, Bool.and_eq_true] at hall
    by_cases h : k' = k
    · simp [Dict.insert, h, hv, hall.2]
    · simp [Dict.insert, h, hall.1, ih hall.2]

theorem charListLt_irrefl : ∀ l : List Char, charListLt l l = false
  | [] => rfl
  | x :: xs => by
    simp [charListLt, lt_irrefl, charListLt_irrefl xs]

theorem charListLt_trans : ∀ (a b c : List Char),
    charListLt a b = true → charListLt b c = true → charListLt a c = true
  | [], [], _, hab, _ => by simp [charListLt] at hab
  | [], _ :: _, [], _, hbc => by simp [charListLt] at hbc
  | [], _ :: _, _ :: _, _, _ => rfl
  | _ :: _, [], _, hab, _ => by simp [charListLt] at hab
  | _ :: _, _ :: _, [], _, hbc => by simp [charListLt] at hbc
  | x :: xs, y :: ys, z :: zs, hab, hbc => by
    simp only [charListLt] at hab hbc ⊢
    by_cases hxy : x < y
    · by_cases hyz : y < z
      · simp [lt_trans hxy hyz]
      · by_cases hzy : z < y
        · simp [hyz, hzy] at hbc
        · have hyz' : y = z := le_antisymm (not_lt.mp hzy) (not_lt.mp hyz)
          subst hyz'
          simp [hxy]
    · by_cases hyx : y < x
      · simp [hxy, hyx] at hab
      · have hxy' : x = y := le_antisymm (not_lt.mp hyx) (not_lt.mp hxy)
        subst hxy'
        simp only [lt_irrefl, if_false] at hab
        by_cases hxz : x < z
        · simp [hxz]
        · by_cases hzx : z < x
          · simp [hxz, hzx] at hbc
          · have hxz' : x = z := le_antisymm (not_lt.mp hzx) (not_lt.mp hxz)
            subst hxz'
            simp only [lt_irrefl, if_false] at hbc ⊢
            exact charListLt_trans xs ys zs hab hbc

theorem charListLt_eq_of_not_lt : ∀ (a b : List Char),
    charListLt a b = false → charListLt b a = false → a = b
  | [], [], _, _ => rfl
  | [], _ :: _, hab, _ => by simp [charListLt] at hab
  | _ :: _, [], _, hba => by simp [charListLt] at hba
  | x :: xs, y :: ys, hab, hba => by
    simp only [charListLt] at hab hba
    by_cases hxy : x < y
    · simp [hxy] at hab
    · by_cases hyx : y < x
      · simp [hxy, hyx] at hba
      · have hxy' : x = y := le_antisymm (not_lt.mp hyx) (not_lt.mp hxy)
        subst hxy'
        simp only [lt_irrefl, if_false] at hab hba
        rw [charListLt_eq_of_not_lt xs ys hab hba]

theorem strLtB_irrefl (a : String) : strLtB a a = false :=
  charListLt_irrefl a.toList

theorem strLtB_trans {a b c : String} (hab : strLtB a b = true)
    (hbc : strLtB b c = true) : strLtB a c = true :=
  charListLt_trans a.toList b.toList c.toList hab hbc

theorem strLtB_eq_of_not_lt {a b : String} (hab : strLtB a b = false)
    (hba : strLtB b a = false) : a = b := by
  have h := charListLt_eq_of_not_lt a.toList b.toList hab hba
  cases a; cases b
  simpa [String.toList, List.asString] using congrArg List.asString h

theorem strLtB_false_trans {a b c : String} (hab : strLtB a b = false)
    (hbc : strLtB b c = false) : strLtB a c = false := by
  cases hcb : strLtB c b with
  | true =>
    cases hac : strLtB a c with
    | true => exact absurd (strLtB_trans hac hcb) (by simp [hab])
    | false => rfl
  | false =>
    have := strLtB_eq_of_not_lt hbc hcb
    subst this
    exact hab

theorem minFold_cons_lt {z x : String} (zs : List String)
    (h : strLtB z x = true) : minFold (z :: zs) x = minFold zs z := by
  simp [minFold, h]

theorem minFold_cons_ge {z x : String} (zs : List String)
    (h : strLtB z x = false) : minFold (z :: zs) x = minFold zs x := by
  simp [minFold, h]

theorem minFold_le_seed : ∀ (l : List String) (x : String),
    strLtB x (minFold l x) = false
  | [], x => strLtB_irrefl x
  | z :: zs, x => by
    cases hzx : strLtB z x with
    | true =>
      rw [minFold_cons_lt zs hzx]
      have ih := minFold_le_seed zs z
      cases hx : strLtB x (minFold zs z) with
      | true => exact absurd (strLtB_trans hzx hx) (by simp [ih])
      | false => rfl
    | false =>
      rw [minFold_cons_ge zs hzx]
      exact minFold_le_seed zs x

theorem minFold_le_mem : ∀ (l : List String) (x y : String), y ∈ l →
    strLtB y (minFold l x) = false
  | [], _, _, hy => by simp at hy
  | z :: zs, x, y, hy => by
    rcases List.mem_cons.mp hy with hyz | hyzs
    · subst hyz
      cases hzx : strLtB y x with
      | true =>
        rw [minFold_cons_lt zs hzx]
        exact minFold_le_seed zs y
      | false =>
        rw [minFold_cons_ge zs hzx]
        exact strLtB_false_trans hzx (minFold_le_seed zs x)
    · cases hzx : strLtB z x with
      | true =>
        rw [minFold_cons_lt zs hzx]
        exact minFold_le_mem zs z y hyzs
      | false =>
        rw [minFold_cons_ge zs hzx]
        exact minFold_le_mem zs x y hyzs

theorem minFold_mem : ∀ (l : List String) (x : String),
    minFold l x = x ∨ minFold l x ∈ l
  | [], _ => Or.inl rfl
  | z :: zs, x => by
    cases hzx : strLtB z x with
    | true =>
      rw [minFold_cons_lt zs hzx]
      rcases minFold_mem zs z with h | h
      · exact Or.inr (by simp [h])
      · exact Or.inr (by simp [h])
    | false =>
      rw [minFold_cons_ge zs hzx]
      rcases minFold_mem zs x with h | h
      · exact Or.inl h
      · exact Or.inr (by simp [h])

theorem strMin?_spec (l : List String) (v : String) (h : strMin? l = some v) :
    v ∈ l ∧ ∀ y ∈ l, strLtB y v = false := by
  cases l with
  | nil => simp [strMin?] at h
  | cons x xs =>
    simp only [strMin?, Option.some.injEq] at h
    subst h
    refine ⟨?_, ?_⟩
    · rcases minFold_mem xs x with h | h
      · simp [h]
      · simp [h]
    · intro y hy
      rcases List.mem_cons.mp hy with hyx | hyxs
      · rw [hyx]
        exact minFold_le_seed xs x
      · exact minFold_le_mem xs x y hyxs

/-! ### Claims -/

/-- C2 (counterexample): on a backing file that exists but is not valid
JSON, `AudioFileManager._load_metadata` does not degrade to an empty
store — the `json.JSONDecodeError` propagates out of the constructor, so
the claim's "must hold for both store constructors" is false. -/
theorem C2_counterexample :
    AudioFileManager.load_metadata MetaFile.invalid =
      Except.error PyError.jsonDecodeError := rfl

/-- C2 (amended): only `MetadataManager._load` degrades to an empty
in-memory store on an unparsable backing file; `AudioFileManager`'s own
`_load_metadata` raises `json.JSONDecodeError` there.  Both yield an
empty store when the file is absent. -/
theorem C2_amended :
    MetadataManager.ofFile MetaFile.invalid =
      { metadata := [], file := MetaFile.invalid } ∧
    AudioFileManager.load_metadata MetaFile.invalid =
      Except.error PyError.jsonDecodeError ∧
    MetadataManager.ofFile MetaFile.absent =
      { metadata := [], file := MetaFile.absent } ∧
    AudioFileManager.load_metadata MetaFile.absent = Except.ok [] :=
  ⟨rfl, rfl, rfl, rfl⟩

/-- C3: when the target slot's stored record has `read_only = true`,
`finalize_recording` returns (no exception) with the manager state — the
stored record, both occupied sets, the backing JSON file and the
filesystem — entirely unchanged. -/
theorem C3_readonly_finalize_noop (m : Manager) (info : TempInfo)
    (conv : ConvOutcome) (r : Record)
    (hr : m.metadata.get info.button_id = some r)
    (hro : r.read_only = true) :
    m.finalize_recording info conv = Except.ok m := by
  simp [Manager.finalize_recording, Manager.slotReadOnly, hr, hro]

/-- C3 witness: the read-only slot "3" blocks a concrete finalize. -/
theorem C3_readonly_finalize_noop_witness :
    exRO.finalize_recording exROinfo ConvOutcome.success = Except.ok exRO :=
  C3_readonly_finalize_noop exRO exROinfo ConvOutcome.success
    { baseRec with read_only := true } (by decide) (by decide)

/-- C9: `update_recording` (put) followed by constructing a fresh store
from the same backing file yields the stored record unchanged in all
fields. -/
theorem C9_roundtrip (m : MetadataManager) (id : String) (r : Record) :
    (MetadataManager.ofFile ((m.update_recording id r).file)).get id =
      some r := by
  simp [MetadataManager.update_recording, MetadataManager.save,
    MetadataManager.ofFile, MetadataManager.load, MetadataManager.get,
    Dict.get_insert_self]

/-- C10: when the target slot is read-only, `finalize_recording` neither
moves nor deletes the pending temp file: the call returns normally and
the temp path still holds its original content. -/
theorem C10_readonly_temp_kept (m : Manager) (info : TempInfo)
    (conv : ConvOutcome) (r : Record) (c : Content)
    (hr : m.metadata.get info.button_id = some r)
    (hro : r.read_only = true)
    (ht : m.fs.get info.temp_path = some c) :
    runOk (m.finalize_recording info conv) = true ∧
    (runFS (m.finalize_recording info conv)).get info.temp_path = some c := by
  have hfin : m.finalize_recording info conv = Except.ok m := by
    simp [Manager.finalize_recording, Manager.slotReadOnly, hr, hro]
  rw [hfin]
  exact ⟨rfl, ht⟩

/-- C10 witness: the concrete temp file survives the blocked finalize. -/
theorem C10_readonly_temp_kept_witness :
    runOk (exRO.finalize_recording exROinfo ConvOutcome.failed) = true ∧
    (runFS (exRO.finalize_recording exROinfo ConvOutcome.failed)).get
      exROinfo.temp_path = some (Content.wav 7) :=
  C10_readonly_temp_kept exRO exROinfo ConvOutcome.failed
    { baseRec with read_only := true } (Content.wav 7)
    (by decide) (by decide) (by decide)

/-- C1 (counterexample): on a saturated away_message category whose
oldest record sits at id "3", `get_new_file_id` returns "1", not the
minimum-timestamp occupant; and on a saturated free-form category it
returns `None`, i.e. it does report that no id is available. -/
theorem C1_counterexample :
    specSaturated exC1saturated "away_message" = true ∧
    specMinTimestampIds exC1saturated "away_message" = ["3"] ∧
    (exC1saturated.get_new_file_id "away_message").1 = some "1" ∧
    specSaturated exC1freeform "greeting" = true ∧
    (exC1freeform.get_new_file_id "greeting").1 = none := by
  decide

/-- C1 (amended): eviction never looks at timestamps.  When the cached
occupied set of a legacy category (away_message / custom_message) covers
the whole four-id pool, `get_new_file_id` clears that set and returns
the pool's smallest id "1"; when any other category's id range is fully
covered by the store's keys, it returns `None` (no id available). -/
theorem C1_amended (m : Manager) (t : String) :
    ((∀ x ∈ Manager.MAX_FILES_PER_TYPE, x ∈ m.occupied_away) →
      (m.get_new_file_id "away_message").1 = some "1") ∧
    ((∀ x ∈ Manager.MAX_FILES_PER_TYPE, x ∈ m.occupied_custom) →
      (m.get_new_file_id "custom_message").1 = some "1") ∧
    (t ≠ "away_message" → t ≠ "custom_message" →
      (∀ x ∈ Manager.buttonUniverse m.num_buttons, x ∈ m.metadata.keys) →
      (m.get_new_file_id t).1 = none) := by
  refine ⟨?_, ?_, ?_⟩
  · intro h
    have hav : m.availableIds "away_message" = [] := by
      simp only [Manager.availableIds, sdiffS, if_pos, beq_self_eq_true]
      rw [List.filter_eq_nil_iff]
      intro a ha
      simpa using h a ha
    simp [Manager.get_new_file_id, hav]
    decide
  · intro h
    have hav : m.availableIds "custom_message" = [] := by
      have hb : ("custom_message" == "away_message") = false := by decide
      simp only [Manager.availableIds, sdiffS, hb, Bool.false_eq_true,
        if_false, beq_self_eq_true, if_pos]
      rw [List.filter_eq_nil_iff]
      intro a ha
      simpa using h a ha
    simp [Manager.get_new_file_id, hav]
    decide
  · intro h1 h2 h
    have hb1 : (t == "away_message") = false := beq_eq_false_iff_ne.mpr h1
    have hb2 : (t == "custom_message") = false := beq_eq_false_iff_ne.mpr h2
    have hav : m.availableIds t = [] := by
      simp only [Manager.availableIds, sdiffS, hb1, hb2, Bool.false_eq_true,
        if_false]
      rw [List.filter_eq_nil_iff]
      intro a ha
      simpa using h a ha
    simp [Manager.get_new_file_id, hav, hb1, hb2]

/-- C1 witness: the amended behavior on the two saturated states. -/
theorem C1_amended_witness :
    (exC1saturated.get_new_file_id "away_message").1 = some "1" ∧
    (exC1freeform.get_new_file_id "greeting").1 = none := by
  have h1 := (C1_amended exC1saturated "greeting").1 (by decide)
  have h2 := (C1_amended exC1freeform "greeting").2.2 (by decide) (by decide)
    (by decide)
  exact ⟨h1, h2⟩

/-- C4 (counterexample): two manager states with identical metadata
mappings (both empty) and identical configuration, differing only in the
cached `occupied_away_messages` set, get different ids from
`get_new_file_id("away_message")` — so the result is not determined by
the store contents and occupancy is not recomputed from the store. -/
theorem C4_counterexample :
    exC4a.metadata = exC4b.metadata ∧
    exC4a.num_buttons = exC4b.num_buttons ∧
    (exC4a.get_new_file_id "away_message").1 = some "1" ∧
    (exC4b.get_new_file_id "away_message").1 = some "2" ∧
    (exC4a.get_new_file_id "away_message").1 ≠
      (exC4b.get_new_file_id "away_message").1 := by
  decide

/-- C4 (amended): for the away/custom legacy categories the allocator
reads the cached occupied sets, so equal metadata does not determine the
result; for every other category occupancy is recomputed on each call
from the store — as the set of all store keys, not filtered by
`message_type` — so two managers with equal metadata and equal
`num_buttons` allocate the same id. -/
theorem C4_amended (m1 m2 : Manager) (t : String)
    (h1 : t ≠ "away_message") (h2 : t ≠ "custom_message")
    (hm : m1.metadata = m2.metadata) (hn : m1.num_buttons = m2.num_buttons) :
    (m1.get_new_file_id t).1 = (m2.get_new_file_id t).1 := by
  have hb1 : (t == "away_message") = false := beq_eq_false_iff_ne.mpr h1
  have hb2 : (t == "custom_message") = false := beq_eq_false_iff_ne.mpr h2
  have e : m1.availableIds t = m2.availableIds t := by
    simp [Manager.availableIds, hb1, hb2, hm, hn]
  simp only [Manager.get_new_file_id, e, hb1, hb2]
  cases hE : (m2.availableIds t).isEmpty with
  | true => simp [hE]
  | false => simp [hE]

/-- C4 witness: equal stores, different caches, same free-form result. -/
theorem C4_amended_witness :
    (exC4w1.get_new_file_id "greeting").1 =
      (exC4w2.get_new_file_id "greeting").1 :=
  C4_amended exC4w1 exC4w2 "greeting" (by decide) (by decide) rfl rfl

/-- C5 (counterexample): with ten buttons, id "1" occupied and both "2"
and "10" free, `get_new_file_id` returns "10" — the lexicographically
smallest string under Python's `min`, not the numerically smallest
member "2" that the claim predicts. -/
theorem C5_counterexample :
    "2" ∈ exC5mgr.availableIds "greeting" ∧
    "10" ∈ exC5mgr.availableIds "greeting" ∧
    (exC5mgr.get_new_file_id "greeting").1 = some "10" ∧
    (exC5mgr.get_new_file_id "greeting").1 ≠ some "2" := by
  decide

/-- C5 (amended): on a non-saturated category `get_new_file_id` returns
the *lexicographically* (by code point, as Python's `min` compares
strings) smallest member of the available set — which is not the
numerically smallest once ids reach two digits. -/
theorem C5_amended (m : Manager) (t v : String)
    (h : strMin? (m.availableIds t) = some v) :
    (m.get_new_file_id t).1 = some v ∧ v ∈ m.availableIds t ∧
      ∀ y ∈ m.availableIds t, strLtB y v = false := by
  have hspec := strMin?_spec (m.availableIds t) v h
  refine ⟨?_, hspec.1, hspec.2⟩
  cases hav : m.availableIds t with
  | nil =>
    rw [hav] at h
    simp [strMin?] at h
  | cons a as =>
    rw [hav] at h
    simp [Manager.get_new_file_id, hav, h]

/-- C5 witness: the concrete ten-button state allocates "10". -/
theorem C5_amended_witness :
    (exC5mgr.get_new_file_id "greeting").1 = some "10" ∧
    "10" ∈ exC5mgr.availableIds "greeting" := by
  have h := C5_amended exC5mgr "greeting" "10" (by decide)
  exact ⟨h.1, h.2.1⟩

/-- C6 (counterexample): the timestamps actually stored are
`datetime.utcnow().isoformat()` strings — `2024-05-06T07:08:09.123456`
with a `T` separator and microseconds — which fail the claimed fixed
format `YYYY-MM-DD HH:MM:SS` for all three writers: `assign_default`,
`restore_default`, and `finalize_recording` (whose record carries the
descriptor timestamp that `record_audio_to_temp` created). -/
theorem C6_counterexample :
    tsAt (exC6.assign_default "2" "/src.wav" dtC6 (some 5)).metadata "2" =
      some "2024-05-06T07:08:09.123456" ∧
    tsAt (exC6.restore_default "2" dtC6 100 (some 6)).metadata "2" =
      some "2024-05-06T07:08:09.123456" ∧
    (exC6pend.1).timestamp = "2024-05-06T07:08:09.123456" ∧
    tsAt (runStore (exC6pend.2.finalize_recording exC6pend.1
      ConvOutcome.success)) "5" = some "2024-05-06T07:08:09.123456" ∧
    specTimestampFormat "2024-05-06T07:08:09.123456" = false := by
  decide

/-- C6 (amended): every record written by `finalize_recording`,
`assign_default` or `restore_default` carries the ISO-8601 string
`datetime.utcnow().isoformat()` captured at creation (with a `T`
separator and optional fractional seconds), not `YYYY-MM-DD HH:MM:SS`:
assign/restore stamp the current time directly, and finalize copies the
pending descriptor's timestamp, which `record_audio_to_temp` created
with `isoformat()`. -/
theorem C6_amended (m : Manager) (id fp : String) (now : DateTime)
    (dur : Option Int) (epoch : Nat) (c : Content) (info : TempInfo)
    (conv : ConvOutcome) (bid mt : String) (pcm : Nat) (duration : Int) :
    (m.fs.get fp = some c →
      tsAt (m.assign_default id fp now dur).metadata id =
        some now.isoformat) ∧
    (m.fs.get (m.storage_dir ++ "/default_" ++ id ++ ".wav") = some c →
      tsAt (m.restore_default id now epoch dur).metadata id =
        some now.isoformat) ∧
    (m.slotReadOnly info.button_id = false →
      runOk (m.finalize_recording info conv) = true →
      tsAt (runStore (m.finalize_recording info conv)) info.button_id =
        some info.timestamp) ∧
    ((m.record_audio_to_temp bid mt now epoch pcm duration).1).timestamp =
      now.isoformat := by
  refine ⟨?_, ?_, ?_, ?_⟩
  · intro hc
    simp [Manager.assign_default, hc, tsAt, Dict.get_insert_self]
  · intro hc
    simp [Manager.restore_default, hc, tsAt, Dict.get_insert_self]
  · intro hro hok
    simp only [Manager.finalize_recording, hro, Bool.false_eq_true,
      if_false] at hok ⊢
    cases hfs : Manager.finalizeFS m info conv with
    | error e => rw [hfs] at hok; simp [runOk] at hok
    | ok fs' =>
      simp [runStore, tsAt, Dict.get_insert_self, Manager.finalRecord]
  · simp [Manager.record_audio_to_temp]

/-- C6 witness: the amended statement at the concrete state. -/
theorem C6_amended_witness :
    tsAt (exC6.assign_default "2" "/src.wav" dtC6 (some 5)).metadata "2" =
      some dtC6.isoformat ∧
    tsAt (exC6.restore_default "2" dtC6 100 (some 6)).metadata "2" =
      some dtC6.isoformat ∧
    tsAt (runStore (exC6pend.2.finalize_recording exC6pend.1
      ConvOutcome.success)) "5" = some (exC6pend.1).timestamp ∧
    ((baseMgr.record_audio_to_temp "5" "note" dtC6 100 7 3).1).timestamp =
      dtC6.isoformat := by
  have h := C6_amended exC6 "2" "/src.wav" dtC6 (some 5) 100 (Content.wav 5)
    exC6pend.1 ConvOutcome.success "5" "note" 7 3
  have h2 := C6_amended exC6pend.2 "2" "/src.wav" dtC6 (some 6) 100
    (Content.wav 6) exC6pend.1 ConvOutcome.success "5" "note" 7 3
  refine ⟨h.1 (by decide), ?_, h2.2.2.1 (by decide) (by decide), h.2.2.2⟩
  have h3 := C6_amended exC6 "2" "/src.wav" dtC6 (some 6) 100 (Content.wav 6)
    exC6pend.1 ConvOutcome.success "5" "note" 7 3
  exact h3.2.1 (by decide)

/-- C7 (counterexample): `set_read_only` is among the claim's listed
operations, yet calling it with `read_only=False` on a factory-default
record leaves `is_default = true` with `read_only = false`, breaking the
default⇒read-only invariant. -/
theorem C7_counterexample :
    defaultsReadOnly exC7.metadata = true ∧
    defaultsReadOnly ((exC7.set_read_only "1" false).metadata) = false := by
  decide

/-- C7 (amended): the default⇒read-only invariant is preserved by
`finalize_recording`, `assign_default`, `restore_default`,
`discard_recording`, and by `set_read_only` when setting the flag to
true — but not by `set_read_only(id, False)`, which can strip the
protection off a default record (see the counterexample). -/
theorem C7_amended (m : Manager) (info : TempInfo) (conv : ConvOutcome)
    (id fp : String) (now : DateTime) (epoch : Nat) (dur : Option Int)
    (h : defaultsReadOnly m.metadata = true) :
    (runOk (m.finalize_recording info conv) = true →
      defaultsReadOnly (runStore (m.finalize_recording info conv)) = true) ∧
    defaultsReadOnly ((m.set_read_only id true).metadata) = true ∧
    defaultsReadOnly ((m.assign_default id fp now dur).metadata) = true ∧
    defaultsReadOnly ((m.restore_default id now epoch dur).metadata) = true ∧
    (m.discard_recording id).metadata = m.metadata := by
  refine ⟨?_, ?_, ?_, ?_, rfl⟩
  · intro hok
    simp only [Manager.finalize_recording] at hok ⊢
    cases hslot : m.slotReadOnly info.button_id with
    | true => simpa [hslot, runStore] using h
    | false =>
      simp only [hslot, Bool.false_eq_true, if_false] at hok ⊢
      cases hfs : Manager.finalizeFS m info conv with
      | error e => rw [hfs] at hok; simp [runOk] at hok
      | ok fs' =>
        simp only [runStore]
        exact Dict.all_insert m.metadata info.button_id
          (Manager.finalRecord m info) _ h (by simp [Manager.finalRecord])
  · cases hget : m.metadata.get id with
    | none => simpa [Manager.set_read_only, hget] using h
    | some r =>
      simp only [Manager.set_read_only, hget]
      exact Dict.all_insert m.metadata id { r with read_only := true } _ h
        (by simp)
  · cases hget : m.fs.get fp with
    | none => simpa [Manager.assign_default, hget] using h
    | some c =>
      simp only [Manager.assign_default, hget]
      exact Dict.all_insert m.metadata id _ _ h (by simp)
  · cases hget : m.fs.get (m.storage_dir ++ "/default_" ++ id ++ ".wav") with
    | none => simpa [Manager.restore_default, hget] using h
    | some c =>
      simp only [Manager.restore_default, hget]
      exact Dict.all_insert m.metadata id _ _ h (by simp)

/-- C7 witness: the invariant-preserving operations on the concrete
default-holding store. -/
theorem C7_amended_witness :
    defaultsReadOnly ((exC7.set_read_only "1" true).metadata) = true ∧
    defaultsReadOnly
      ((exC7.assign_default "2" "/src.wav" dtC6 none).metadata) = true ∧
    defaultsReadOnly
      ((exC7.restore_default "2" dtC6 100 none).metadata) = true := by
  have h := C7_amended exC7 exROinfo ConvOutcome.success "1" "/src.wav" dtC6
    100 none (by decide)
  have h2 := C7_amended exC7 exROinfo ConvOutcome.success "2" "/src.wav" dtC6
    100 none (by decide)
  exact ⟨h.2.1, h2.2.2.1, h2.2.2.2.1⟩

/-- C8: with a companded output format configured and the ffmpeg
subprocess failing (non-zero exit, timeout, or executable not found),
`finalize_recording` on a non-read-only slot with an existing temp file
still returns normally, stores the *untranscoded* original temp content
at the final storage path, and writes the metadata record. -/
theorem C8_conversion_fallback (m : Manager) (info : TempInfo)
    (conv : ConvOutcome) (c : Content)
    (hfmt : m.audio_format = "alaw" ∨ m.audio_format = "ulaw")
    (hconv : conv ≠ ConvOutcome.success)
    (hro : m.slotReadOnly info.button_id = false)
    (ht : m.fs.get info.temp_path = some c) :
    runOk (m.finalize_recording info conv) = true ∧
    (runFS (m.finalize_recording info conv)).get (Manager.finalPath m info) =
      some c ∧
    (runStore (m.finalize_recording info conv)).get info.button_id =
      some (Manager.finalRecord m info) := by
  have hcomp : (m.audio_format == "alaw" || m.audio_format == "ulaw") =
      true := by
    rcases hfmt with h | h <;> simp [h]
  have hcv : Manager.convert_audio_format m.audio_format conv = false := by
    unfold Manager.convert_audio_format
    rw [if_pos hcomp]
    cases conv with
    | success => exact absurd rfl hconv
    | failed => rfl
    | timeout => rfl
    | notFound => rfl
  have hffs : Manager.finalizeFS m info conv =
      Except.ok (Dict.insert (m.fs.filter (fun p => p.1 != info.temp_path))
        (Manager.finalPath m info) c) := by
    simp [Manager.finalizeFS, hcomp, hcv, FS.move, ht]
  simp [Manager.finalize_recording, hro, hffs, runOk, runFS, runStore,
    Dict.get_insert_self]

/-- C8 witness: the alaw-configured manager with a timed-out conversion
still lands the original content at the final path. -/
theorem C8_conversion_fallback_witness :
    runOk (exC8.finalize_recording exC8info ConvOutcome.timeout) = true ∧
    (runFS (exC8.finalize_recording exC8info ConvOutcome.timeout)).get
      (Manager.finalPath exC8 exC8info) = some (Content.wav 7) ∧
    (runStore (exC8.finalize_recording exC8info ConvOutcome.timeout)).get
      "5" = some (Manager.finalRecord exC8 exC8info) :=
  C8_conversion_fallback exC8 exC8info ConvOutcome.timeout (Content.wav 7)
    (Or.inl rfl) (by decide) (by decide) (by decide)

end AudioFiles
